import Mathlib

/-!
# Verification of the DbbSoft deployment stack against its specification

Shallow embedding of the repository:

* `src/lib/dbb_soft_test-stack.ts` — the CDK stack (`DbbSoftTestStack`), the
  spec's "Descriptor Builder": it reads the application version from
  `app/package.json` and assembles the declarative resource model
  (security group, ECR repository, image push, source bundle, IAM role,
  instance profile, Elastic Beanstalk application / application version /
  environment).
* `src/app/server.js` — the Express health server.

The "Deployment Applier" of the spec is the external CDK/CloudFormation
engine and is not part of the repository's source; where a claim is about
it, the corresponding definition is modelled from the spec and marked so
in its doc comment.
-/

namespace DbbSoft

/-- `cdk.RemovalPolicy` values used by the stack. -/
inductive RemovalPolicy
  | destroy
  | retain
  deriving DecidableEq, Repr

/-- Deploy-time context the stack consumes: account/region (CDK env), the
looked-up default VPC, and the CDK-managed asset locations (the staging
image URI produced by `DockerImageAsset` and the S3 location produced by
`s3assets.Asset`). -/
structure Config where
  account : String
  region : String
  vpcId : String
  publicSubnetIds : List String
  assetImageUri : String
  sourceBundleBucket : String
  sourceBundleKey : String
  deriving DecidableEq, Repr

/-- One ingress rule of a security group, as added by `addIngressRule`. -/
structure IngressRule where
  peer : String
  protocol : String
  port : Nat
  description : String
  deriving DecidableEq, Repr

/-- `ec2.SecurityGroup` (`WebSg`) with its ingress rules. -/
structure SecurityGroup where
  description : String
  allowAllOutbound : Bool
  ingressRules : List IngressRule
  deriving DecidableEq, Repr

/-- `ecr.Repository` (`MyWebAppRepo`). -/
structure EcrRepository where
  repositoryName : String
  removalPolicy : RemovalPolicy
  emptyOnDelete : Bool
  deriving DecidableEq, Repr

/-- `ecrdeploy.ECRDeployment` (`DeployDockerImage`): copies the built image
from the CDK staging repository to the application repository. -/
structure EcrDeployment where
  src : String
  dest : String
  deriving DecidableEq, Repr

/-- `s3assets.Asset` (`AppSourceZip`): the Elastic Beanstalk source bundle. -/
structure SourceBundle where
  s3Bucket : String
  s3Key : String
  deriving DecidableEq, Repr

/-- `iam.Role` (`EBInstanceRole`) with its managed policies. -/
structure IamRole where
  assumedBy : String
  managedPolicies : List String
  deriving DecidableEq, Repr

/-- `iam.CfnInstanceProfile` (`EBInstanceProfile`). -/
structure InstanceProfile where
  roles : List String
  deriving DecidableEq, Repr

/-- `elasticbeanstalk.CfnApplication` (`MyEBApp`). -/
structure EbApplication where
  applicationName : String
  deriving DecidableEq, Repr

/-- `elasticbeanstalk.CfnApplicationVersion` (`MyAppVersion`) — the spec's
DeploymentRecord. -/
structure EbApplicationVersion where
  applicationName : String
  sourceBundle : SourceBundle
  description : String
  deriving DecidableEq, Repr

/-- One `optionSettings` entry of the Beanstalk environment
(namespace / optionName / value triple). -/
structure OptionSetting where
  ns : String
  optionName : String
  value : String
  deriving DecidableEq, Repr

/-- `elasticbeanstalk.CfnEnvironment` (`MyEBEnv`) — the spec's
ComputeEnvironment. -/
structure EbEnvironment where
  environmentName : String
  applicationName : String
  solutionStackName : String
  versionLabel : String
  optionSettings : List OptionSetting
  deriving DecidableEq, Repr

/-- The full descriptor the stack constructor assembles. -/
structure Stack where
  webSg : SecurityGroup
  repo : EcrRepository
  deployDockerImage : EcrDeployment
  appSourceZip : SourceBundle
  ebInstanceRole : IamRole
  ebInstanceProfile : InstanceProfile
  app : EbApplication
  appVersionProps : EbApplicationVersion
  env : EbEnvironment
  deriving DecidableEq, Repr

/-- The registry host part of an ECR repository URI:
`<account>.dkr.ecr.<region>.amazonaws.com`. -/
def registryHost (cfg : Config) : String :=
  cfg.account ++ ".dkr.ecr." ++ cfg.region ++ ".amazonaws.com"

/-- `repo.repositoryUri` as resolved for a repository of the given name:
`<registryHost>/<repositoryName>`. -/
def repositoryUri (cfg : Config) (name : String) : String :=
  registryHost cfg ++ "/" ++ name

/-- A CloudFormation `Ref` to a construct, modelled as an opaque token
carrying the construct id (resolved only at deploy time). -/
def refToken (constructId : String) : String :=
  "Ref:" ++ constructId

/-- A deploy-time attribute of a construct (for values such as
`mySecurityGroup.securityGroupId` that the provider generates). -/
def attrToken (constructId attr : String) : String :=
  constructId ++ "." ++ attr

/-- The descriptor built by `DbbSoftTestStack`'s constructor for a given
version string, mirroring `src/lib/dbb_soft_test-stack.ts` line by line. -/
def stackFor (cfg : Config) (appVersion : String) : Stack :=
  let mySecurityGroup : SecurityGroup :=
    { description := "Allow HTTP access"
      allowAllOutbound := true
      ingressRules := [{ peer := "0.0.0.0/0", protocol := "tcp", port := 80,
                         description := "Allow HTTP traffic" }] }
  let repo : EcrRepository :=
    { repositoryName := "dbbsoftt-repo"
      removalPolicy := RemovalPolicy.destroy
      emptyOnDelete := true }
  let deployDockerImage : EcrDeployment :=
    { src := cfg.assetImageUri
      dest := repositoryUri cfg repo.repositoryName ++ ":" ++ appVersion }
  let appSourceZip : SourceBundle :=
    { s3Bucket := cfg.sourceBundleBucket
      s3Key := cfg.sourceBundleKey }
  let ebInstanceRole : IamRole :=
    { assumedBy := "ec2.amazonaws.com"
      managedPolicies := ["AWSElasticBeanstalkWebTier",
                          "AmazonEC2ContainerRegistryReadOnly"] }
  let ebInstanceProfile : InstanceProfile :=
    { roles := [attrToken "EBInstanceRole" "roleName"] }
  let app : EbApplication := { applicationName := "DbbSoft" }
  let appVersionProps : EbApplicationVersion :=
    { applicationName := "DbbSoft"
      sourceBundle := appSourceZip
      description := "Version " ++ appVersion }
  let env : EbEnvironment :=
    { environmentName := "DbbSoftEnv"
      applicationName := "DbbSoft"
      solutionStackName := "64bit Amazon Linux 2023 v4.8.0 running Docker"
      versionLabel := refToken "MyAppVersion"
      optionSettings :=
        [ { ns := "aws:ec2:vpc", optionName := "VPCId", value := cfg.vpcId },
          { ns := "aws:ec2:vpc", optionName := "Subnets",
            value := String.intercalate "," cfg.publicSubnetIds },
          { ns := "aws:ec2:vpc", optionName := "AssociatePublicIpAddress",
            value := "true" },
          { ns := "aws:autoscaling:launchconfiguration",
            optionName := "IamInstanceProfile",
            value := refToken "EBInstanceProfile" },
          { ns := "aws:autoscaling:launchconfiguration",
            optionName := "InstanceType", value := "t3.micro" },
          { ns := "aws:autoscaling:launchconfiguration",
            optionName := "SecurityGroups",
            value := attrToken "WebSg" "securityGroupId" },
          { ns := "aws:elasticbeanstalk:environment",
            optionName := "EnvironmentType", value := "SingleInstance" },
          { ns := "aws:elasticbeanstalk:application:environment",
            optionName := "AWS_EB_DOCKER_IMAGE_URI",
            value := repositoryUri cfg repo.repositoryName ++ ":" ++ appVersion } ] }
  { webSg := mySecurityGroup
    repo := repo
    deployDockerImage := deployDockerImage
    appSourceZip := appSourceZip
    ebInstanceRole := ebInstanceRole
    ebInstanceProfile := ebInstanceProfile
    app := app
    appVersionProps := appVersionProps
    env := env }

/-- Outcome of reading `app/package.json`. `unreadable` covers a missing
file (`fs.readFileSync` throws) and malformed JSON (`JSON.parse` throws);
`parsed v` is a successfully parsed manifest whose `version` field is `v`
(`none` when the field is absent). -/
inductive ManifestRead
  | unreadable
  | parsed (version : Option String)
  deriving DecidableEq, Repr

/-- Errors the builder can fail with before anything is submitted. -/
inductive BuildError
  | configurationError
  deriving DecidableEq, Repr

/-- JavaScript string interpolation of `packageJson.version`: an absent
field is `undefined` and renders as the string `"undefined"`; any present
string (including the empty string) is used verbatim. -/
def versionString : Option String → String
  | some s => s
  | none => "undefined"

/-- The Descriptor Builder: the stack constructor's read of the manifest
followed by pure descriptor construction. A manifest that cannot be read
or parsed throws out of the constructor — before any provisioning request
exists — which we model as a `configurationError`. -/
def buildStack (cfg : Config) (m : ManifestRead) : Except BuildError Stack :=
  match m with
  | ManifestRead.unreadable => Except.error BuildError.configurationError
  | ManifestRead.parsed v => Except.ok (stackFor cfg (versionString v))

/-- The resources of the descriptor, tagged by kind, in source order. -/
inductive Resource
  | networkRule (r : SecurityGroup)
  | imageRepository (r : EcrRepository)
  | imagePush (r : EcrDeployment)
  | sourceBundle (r : SourceBundle)
  | identityRole (r : IamRole)
  | instanceProfile (r : InstanceProfile)
  | application (r : EbApplication)
  | deploymentRecord (r : EbApplicationVersion)
  | computeEnvironment (r : EbEnvironment)
  deriving DecidableEq, Repr

/-- The descriptor as a list of resources, in the order the constructor
creates them. -/
def Stack.resources (s : Stack) : List Resource :=
  [ Resource.networkRule s.webSg,
    Resource.imageRepository s.repo,
    Resource.imagePush s.deployDockerImage,
    Resource.sourceBundle s.appSourceZip,
    Resource.identityRole s.ebInstanceRole,
    Resource.instanceProfile s.ebInstanceProfile,
    Resource.application s.app,
    Resource.deploymentRecord s.appVersionProps,
    Resource.computeEnvironment s.env ]

/-- Whether a resource is a ComputeEnvironment. -/
def isComputeEnvironment : Resource → Bool
  | Resource.computeEnvironment _ => true
  | _ => false

/-- The values of the environment's option settings with the given option
name. -/
def optionValues (e : EbEnvironment) (name : String) : List String :=
  (e.optionSettings.filter (fun o => o.optionName = name)).map OptionSetting.value

/-! ## Version-tag shape

The spec's VersionTag is "a semantic-version string". We embed the basic
`major.minor.patch` shape: three non-empty all-digit components separated
by dots. -/

/-- Split a character list at every occurrence of `c`. -/
def chunksOn (c : Char) : List Char → List (List Char)
  | [] => [[]]
  | x :: xs =>
    match chunksOn c xs with
    | [] => [[]]
    | h :: t => if x = c then [] :: h :: t else (x :: h) :: t

/-- A non-empty run of decimal digits. -/
def digitChunk (l : List Char) : Bool :=
  !l.isEmpty && l.all Char.isDigit

/-- `major.minor.patch` semantic-version shape. -/
def isSemver (v : String) : Bool :=
  match chunksOn '.' v.toList with
  | [a, b, c] => digitChunk a && digitChunk b && digitChunk c
  | _ => false

/-! ## The health server (`src/app/server.js`) -/

namespace AppServer

/-- The port the Express server listens on (`const PORT = 8080`). -/
def PORT : Nat := 8080

/-- An HTTP response as the Express handlers produce it. -/
structure HttpResponse where
  status : Nat
  contentType : String
  body : String
  deriving DecidableEq, Repr

/-- `JSON.stringify` of a flat object with string values, fields in
insertion order, no whitespace. -/
def renderJsonObj (fields : List (String × String)) : String :=
  "\x7b" ++
    String.intercalate ","
      (fields.map (fun f => "\"" ++ f.1 ++ "\":\"" ++ f.2 ++ "\"")) ++
  "\x7d"

/-- The `GET /health` handler: `res.json` serialises the object and sends
it with status 200 and a JSON content type. It inspects nothing but the
version read at startup — no readiness probing of any kind. -/
def healthHandler (version : String) : HttpResponse :=
  { status := 200
    contentType := "application/json"
    body := renderJsonObj [("status", "healthy"), ("version", version)] }

/-- The `GET /` handler (`res.send` of an HTML string, status 200). -/
def rootHandler (version : String) : HttpResponse :=
  { status := 200
    contentType := "text/html"
    body := "Craneodev test app for DBB Software. The app is running. Version: "
            ++ version }

/-- Express routing for the two registered routes; any other request falls
through (Express would reply 404, which the repository does not define). -/
def handle (version method path : String) : Option HttpResponse :=
  if method = "GET" && path = "/health" then some (healthHandler version)
  else if method = "GET" && path = "/" then some (rootHandler version)
  else none

end AppServer

/-! ## The Deployment Applier

The Applier of the spec is the external CDK/CloudFormation engine; it is
not part of this repository's source. The definitions below are modelled
from the spec (sections 4.2 and 8) and are clearly marked as such. -/

/-- Modelled from the spec: the Applier "resolves creation order via
topological sort over the depends-on edges". Kahn-style selection: emit
the first pending node none of whose dependencies is still pending, then
repeat. Input order is preserved among simultaneously ready nodes. The
fuel argument is the number of remaining steps; a cycle leaves nodes
unemitted. -/
def topoSortAux {α : Type} [DecidableEq α] (dep : α → α → Bool) :
    Nat → List α → List α
  | 0, _ => []
  | n + 1, pending =>
    match pending.find? (fun x => !pending.any (fun y => dep x y)) with
    | some x => x :: topoSortAux dep n (pending.erase x)
    | none => []

/-- Modelled from the spec: topological sort of a resource list along the
depends-on relation `dep` (`dep x y` = `x` depends on `y`). -/
def topoSort {α : Type} [DecidableEq α] (dep : α → α → Bool) (l : List α) :
    List α :=
  topoSortAux dep l.length l

/-- The resource kinds of the claim about creation order. -/
inductive RKind
  | identityRole
  | networkRule
  | imageRepository
  | computeEnvironment
  deriving DecidableEq, Repr

/-- The depends-on edges of the descriptor, read off the stack source: the
environment consumes the instance profile's `ref` (built from the role),
`mySecurityGroup.securityGroupId`, and `repo.repositoryUri`; the three
dependencies reference nothing among themselves. -/
def dependsOn : RKind → RKind → Bool
  | RKind.computeEnvironment, RKind.identityRole => true
  | RKind.computeEnvironment, RKind.networkRule => true
  | RKind.computeEnvironment, RKind.imageRepository => true
  | _, _ => false

/-! ### Applying a descriptor

Modelled from the spec: the Applier "submits creation/update calls to the
external provisioning API" and "is idempotent — re-applying an unchanged
descriptor must not recreate unchanged resources". The external state is
an association of resource names to their submitted specifications; a
descriptor entry is a (name, specification) pair. The specification type
is a parameter; the stack instantiates it with `Resource`. -/

/-- External provisioning state: resource name to submitted specification. -/
abbrev ApplyState (σ : Type) := List (String × σ)

/-- A call issued to the external provisioning API. -/
inductive ApiCall
  | create (name : String)
  | update (name : String)
  deriving DecidableEq, Repr

/-- The resource name an API call addresses. -/
def ApiCall.name : ApiCall → String
  | ApiCall.create n => n
  | ApiCall.update n => n

/-- The operation of an API call, as it is surfaced in errors. -/
def ApiCall.op : ApiCall → String
  | ApiCall.create _ => "create"
  | ApiCall.update _ => "update"

/-- Look up the submitted specification of a named resource. -/
def lookupName {σ : Type} : ApplyState σ → String → Option σ
  | [], _ => none
  | (k, v) :: rest, n => if k = n then some v else lookupName rest n

/-- Record a resource's specification in the state (overwrite in place,
append when new). -/
def setName {σ : Type} : ApplyState σ → String → σ → ApplyState σ
  | [], n, v => [(n, v)]
  | (k, w) :: rest, n, v =>
    if k = n then (n, v) :: rest else (k, w) :: setName rest n v

/-- Modelled from the spec: submit one descriptor entry. A resource absent
from the external state is created; one present with a different
specification is updated; an unchanged resource produces no call. -/
def applyOne {σ : Type} [DecidableEq σ] (st : ApplyState σ)
    (r : String × σ) : ApplyState σ × Option ApiCall :=
  match lookupName st r.1 with
  | none => (setName st r.1 r.2, some (ApiCall.create r.1))
  | some p =>
    if p = r.2 then (st, none)
    else (setName st r.1 r.2, some (ApiCall.update r.1))

/-- Modelled from the spec: one sequential apply pass over the descriptor,
returning the resulting external state and the calls issued, in order. -/
def applyAll {σ : Type} [DecidableEq σ] (st : ApplyState σ) :
    List (String × σ) → ApplyState σ × List ApiCall
  | [] => (st, [])
  | r :: rest =>
    let step := applyOne st r
    let next := applyAll step.1 rest
    (next.1, step.2.toList ++ next.2)

/-- An apply failure: the resource name and the operation that failed. -/
structure ApplyError where
  name : String
  op : String
  deriving DecidableEq, Repr

/-- Modelled from the spec: an apply pass against a provisioning API whose
submission outcomes are given by `submit` (`true` = accepted). The first
rejected call aborts the remaining sequence and is surfaced with its
resource name and operation; nothing after it is submitted and no retry is
attempted. -/
def applySubmit {σ : Type} [DecidableEq σ] (submit : ApiCall → Bool)
    (st : ApplyState σ) :
    List (String × σ) → Except ApplyError (ApplyState σ × List ApiCall)
  | [] => Except.ok (st, [])
  | r :: rest =>
    match applyOne st r with
    | (st', none) => applySubmit submit st' rest
    | (st', some c) =>
      if submit c then
        match applySubmit submit st' rest with
        | Except.ok (stf, cs) => Except.ok (stf, c :: cs)
        | Except.error e => Except.error e
      else Except.error { name := c.name, op := c.op }

/-- The descriptor entries of the built stack, keyed by CDK construct id,
each carrying its specification, in creation order. -/
def Stack.entries (s : Stack) : List (String × Resource) :=
  [ ("WebSg", Resource.networkRule s.webSg),
    ("MyWebAppRepo", Resource.imageRepository s.repo),
    ("DeployDockerImage", Resource.imagePush s.deployDockerImage),
    ("AppSourceZip", Resource.sourceBundle s.appSourceZip),
    ("EBInstanceRole", Resource.identityRole s.ebInstanceRole),
    ("EBInstanceProfile", Resource.instanceProfile s.ebInstanceProfile),
    ("MyEBApp", Resource.application s.app),
    ("MyAppVersion", Resource.deploymentRecord s.appVersionProps),
    ("MyEBEnv", Resource.computeEnvironment s.env) ]

/-- Errors of the whole deployment pipeline. -/
inductive DeployError
  | config (e : BuildError)
  | submission (e : ApplyError)
  deriving DecidableEq, Repr

/-- The deployment pipeline: build the descriptor, then — only when the
build succeeded — hand it to the Applier. A build failure escapes before
the Applier runs, so the error result carries no API call at all. -/
def deploy (submit : ApiCall → Bool) (cfg : Config) (m : ManifestRead)
    (st : ApplyState Resource) :
    Except DeployError (ApplyState Resource × List ApiCall) :=
  match buildStack cfg m with
  | Except.error e => Except.error (DeployError.config e)
  | Except.ok s =>
    match applySubmit submit st s.entries with
    | Except.ok r => Except.ok r
    | Except.error e => Except.error (DeployError.submission e)

/-! ### Stack teardown

The repository configures `MyWebAppRepo` with `removalPolicy: DESTROY` and
`emptyOnDelete: true`. -/

/-- Modelled from the provider contract the stack relies on: destroying
the stack removes a repository whose removal policy is `DESTROY`, and
`emptyOnDelete` first deletes every image stored in it (without
`emptyOnDelete` a non-empty repository cannot be deleted and its images
survive). A `RETAIN` repository keeps its images. -/
def imagesAfterTeardown (repo : EcrRepository) (images : List String) :
    List String :=
  match repo.removalPolicy with
  | RemovalPolicy.destroy => if repo.emptyOnDelete then [] else images
  | RemovalPolicy.retain => images

/-- Whether the security group has an inbound rule for the given port. -/
def hasInboundRuleForPort (sg : SecurityGroup) (p : Nat) : Bool :=
  sg.ingressRules.any (fun r => r.port == p)

/-- A concrete deploy-time context used to instantiate theorems. -/
def testCfg : Config :=
  { account := "123456789012"
    region := "us-east-1"
    vpcId := "vpc-12345"
    publicSubnetIds := ["subnet-a", "subnet-b"]
    assetImageUri := "123456789012.dkr.ecr.us-east-1.amazonaws.com/cdk-assets:abc123"
    sourceBundleBucket := "cdk-staging-bucket"
    sourceBundleKey := "app-source.zip" }

/-! ## Helper lemmas -/

/-- String concatenation is associative (component lists concatenate). -/
theorem string_append_assoc (a b c : String) : a ++ b ++ c = a ++ (b ++ c) := by
  rcases a with ⟨la⟩
  rcases b with ⟨lb⟩
  rcases c with ⟨lc⟩
  show String.mk (la ++ lb ++ lc) = String.mk (la ++ (lb ++ lc))
  rw [List.append_assoc]

/-- `setName` records the written specification at the written name. -/
theorem lookupName_setName_self {σ : Type} (st : ApplyState σ) (n : String)
    (v : σ) : lookupName (setName st n v) n = some v := by
  induction st with
  | nil => simp [setName, lookupName]
  | cons a rest ih =>
    rcases a with ⟨k, w⟩
    by_cases h : k = n
    · simp [setName, lookupName, h]
    · simp [setName, lookupName, h, ih]

/-- `setName` leaves every other name untouched. -/
theorem lookupName_setName_ne {σ : Type} (st : ApplyState σ) (n : String)
    (v : σ) (k : String) (h : k ≠ n) :
    lookupName (setName st n v) k = lookupName st k := by
  induction st with
  | nil => simp [setName, lookupName, Ne.symm h]
  | cons a rest ih =>
    rcases a with ⟨k', w⟩
    by_cases h' : k' = n
    · subst h'
      simp [setName, lookupName, Ne.symm h]
    · simp [setName, lookupName, h', ih]

/-- After submitting one entry, the state holds exactly its specification. -/
theorem lookupName_applyOne_self {σ : Type} [DecidableEq σ]
    (st : ApplyState σ) (r : String × σ) :
    lookupName (applyOne st r).1 r.1 = some r.2 := by
  unfold applyOne
  cases hl : lookupName st r.1 with
  | none => simp [lookupName_setName_self]
  | some p =>
    by_cases hp : p = r.2
    · simp [hp, hl]
    · simp [hp, lookupName_setName_self]

/-- Submitting one entry does not disturb other names. -/
theorem lookupName_applyOne_ne {σ : Type} [DecidableEq σ]
    (st : ApplyState σ) (r : String × σ) (k : String) (h : k ≠ r.1) :
    lookupName (applyOne st r).1 k = lookupName st k := by
  unfold applyOne
  cases hl : lookupName st r.1 with
  | none => simp [lookupName_setName_ne st r.1 r.2 k h]
  | some p =>
    by_cases hp : p = r.2
    · simp [hp]
    · simp [hp, lookupName_setName_ne st r.1 r.2 k h]

/-- An apply pass does not disturb names outside the descriptor. -/
theorem lookupName_applyAll_not_mem {σ : Type} [DecidableEq σ]
    (st : ApplyState σ) (d : List (String × σ)) (k : String)
    (h : k ∉ d.map Prod.fst) :
    lookupName (applyAll st d).1 k = lookupName st k := by
  induction d generalizing st with
  | nil => rfl
  | cons a rest ih =>
    simp only [List.map_cons, List.mem_cons, not_or] at h
    show lookupName (applyAll (applyOne st a).1 rest).1 k = lookupName st k
    rw [ih _ h.2, lookupName_applyOne_ne st a k h.1]

/-- After an apply pass over a descriptor with distinct names, the state
holds exactly the specification of each descriptor entry. -/
theorem lookupName_applyAll_mem {σ : Type} [DecidableEq σ]
    (st : ApplyState σ) (d : List (String × σ))
    (hnd : (d.map Prod.fst).Nodup) (r : String × σ) (hr : r ∈ d) :
    lookupName (applyAll st d).1 r.1 = some r.2 := by
  induction d generalizing st with
  | nil => cases hr
  | cons a rest ih =>
    simp only [List.map_cons, List.nodup_cons] at hnd
    rcases List.mem_cons.mp hr with h | h
    · subst h
      show lookupName (applyAll (applyOne st r).1 rest).1 r.1 = some r.2
      rw [lookupName_applyAll_not_mem _ _ _ hnd.1,
        lookupName_applyOne_self]
    · exact ih _ hnd.2 h

/-- A descriptor that is already reflected in the state applies without a
single API call and without changing the state. -/
theorem applyAll_no_change {σ : Type} [DecidableEq σ] (st : ApplyState σ)
    (d : List (String × σ))
    (h : ∀ r ∈ d, lookupName st r.1 = some r.2) :
    applyAll st d = (st, []) := by
  induction d with
  | nil => rfl
  | cons a rest ih =>
    have ha : applyOne st a = (st, none) := by
      unfold applyOne
      rw [h a (List.mem_cons_self a rest)]
      simp
    show (let step := applyOne st a
          let next := applyAll step.1 rest
          (next.1, step.2.toList ++ next.2)) = (st, [])
    rw [ha]
    simp only [Option.toList_none, List.nil_append]
    rw [ih (fun r hr => h r (List.mem_cons_of_mem a hr))]

/-- When every call an apply pass issues is accepted, applying against the
fallible API agrees with the infallible pass. -/
theorem applySubmit_ok {σ : Type} [DecidableEq σ] (submit : ApiCall → Bool)
    (st : ApplyState σ) (d : List (String × σ))
    (h : ∀ c ∈ (applyAll st d).2, submit c = true) :
    applySubmit submit st d = Except.ok (applyAll st d) := by
  induction d generalizing st with
  | nil => rfl
  | cons a rest ih =>
    cases ha : applyOne st a with
    | mk st' copt =>
      have hall : applyAll st (a :: rest)
          = ((applyAll st' rest).1, copt.toList ++ (applyAll st' rest).2) := by
        show (let step := applyOne st a
              let next := applyAll step.1 rest
              (next.1, step.2.toList ++ next.2)) = _
        rw [ha]
      cases copt with
      | none =>
        have hrest : ∀ c ∈ (applyAll st' rest).2, submit c = true := by
          intro c hc
          apply h
          rw [hall]
          simpa using hc
        show applySubmit submit st (a :: rest) = _
        unfold applySubmit
        rw [ha]
        show applySubmit submit st' rest = _
        rw [ih _ hrest, hall]
        simp
      | some c =>
        have hc : submit c = true := by
          apply h
          rw [hall]
          simp
        have hrest : ∀ c' ∈ (applyAll st' rest).2, submit c' = true := by
          intro c' hc'
          apply h
          rw [hall]
          simp [hc']
        show applySubmit submit st (a :: rest) = _
        unfold applySubmit
        rw [ha]
        simp only [hc, if_true, ih _ hrest, hall]
        simp

/-! ## Claim theorems -/

/-- Claim C1: for every deploy-time context and every valid (semantic)
version tag, the built descriptor contains exactly one ComputeEnvironment,
its `AWS_EB_DOCKER_IMAGE_URI` image reference is exactly the repository
reference joined with the version tag by a colon, and the tag in that
reference is never the literal `"latest"`. -/
theorem c1_unique_compute_env_image_ref (cfg : Config) (v : String)
    (h : isSemver v = true) :
    (stackFor cfg v).resources.countP isComputeEnvironment = 1 ∧
    optionValues (stackFor cfg v).env "AWS_EB_DOCKER_IMAGE_URI"
      = [repositoryUri cfg "dbbsoftt-repo" ++ ":" ++ v] ∧
    v ≠ "latest" := by
  refine ⟨rfl, rfl, ?_⟩
  intro heq
  rw [heq] at h
  exact absurd h (by decide)

/-- Witness for C1 at the concrete context and version `"1.2.3"`. -/
theorem c1_witness :
    (stackFor testCfg "1.2.3").resources.countP isComputeEnvironment = 1 ∧
    optionValues (stackFor testCfg "1.2.3").env "AWS_EB_DOCKER_IMAGE_URI"
      = [repositoryUri testCfg "dbbsoftt-repo" ++ ":" ++ "1.2.3"] ∧
    "1.2.3" ≠ "latest" :=
  c1_unique_compute_env_image_ref testCfg "1.2.3" (by decide)

/-- Claim C2, counterexample: a manifest that parses fine but whose
`version` field is the empty string does NOT make the builder fail — the
build succeeds and the deployment proceeds to issue creation calls, so
the claim's "empty version field" case is false on the code
(`packageJson.version` is interpolated without any emptiness check). -/
theorem c2_counterexample :
    buildStack testCfg (ManifestRead.parsed (some ""))
      = Except.ok (stackFor testCfg "") ∧
    (deploy (fun _ => true) testCfg (ManifestRead.parsed (some "")) []).isOk
      = true := by
  constructor
  · rfl
  · rfl

/-- Claim C2 as amended: if the version manifest is missing or unreadable
(`fs.readFileSync` / `JSON.parse` throws), the builder fails with a
configuration error before the Applier runs, and the failed run carries no
API call; an empty (or absent) `version` field, however, is not detected
and is used verbatim in the image tag. -/
theorem c2_unreadable_manifest_fails (submit : ApiCall → Bool)
    (cfg : Config) (st : ApplyState Resource) :
    deploy submit cfg ManifestRead.unreadable st
      = Except.error (DeployError.config BuildError.configurationError) :=
  rfl

/-- Claim C3, counterexample: the service listens on port 8080
(`src/app/server.js`), the only inbound rule the builder declares is for
TCP port 80, and the build nevertheless succeeds — the builder performs no
validation of network rules against the service port, so the claimed
fail-fast check does not exist. -/
theorem c3_counterexample :
    (buildStack testCfg (ManifestRead.parsed (some "1.0.0"))).isOk = true ∧
    hasInboundRuleForPort (stackFor testCfg "1.0.0").webSg AppServer.PORT
      = false := by
  constructor
  · rfl
  · rfl

/-- Claim C3 as amended: the builder performs no consistency check between
the NetworkRule set and the service's port. For every context and version
the build succeeds even though no inbound rule matches the service port
8080 (the sole ingress rule is for port 80; Elastic Beanstalk forwards
host port 80 to the container's 8080). -/
theorem c3_no_port_validation (cfg : Config) (v : String) :
    (buildStack cfg (ManifestRead.parsed (some v))).isOk = true ∧
    hasInboundRuleForPort (stackFor cfg v).webSg AppServer.PORT = false :=
  ⟨rfl, rfl⟩

/-- Claim C4, counterexample: with version `"1.2.3"` the reference the
builder produces for the pushed image is the fully-qualified
`123456789012.dkr.ecr.us-east-1.amazonaws.com/dbbsoftt-repo:1.2.3`, not
the bare string `dbbsoftt-repo:1.2.3`. -/
theorem c4_counterexample :
    (stackFor testCfg "1.2.3").deployDockerImage.dest
      ≠ "dbbsoftt-repo:1.2.3" := by
  decide

/-- Claim C4 as amended: given VersionTag `"1.2.3"`, the produced image
reference is the repository-local name `dbbsoftt-repo:1.2.3` prefixed by
the registry host — `<registryHost>/dbbsoftt-repo:1.2.3` — since the
source builds it from `repo.repositoryUri`, not from the bare repository
name. -/
theorem c4_image_reference (cfg : Config) :
    (stackFor cfg "1.2.3").deployDockerImage.dest
      = registryHost cfg ++ "/" ++ "dbbsoftt-repo:1.2.3" := by
  show registryHost cfg ++ "/" ++ "dbbsoftt-repo" ++ ":" ++ "1.2.3" = _
  rw [string_append_assoc (registryHost cfg ++ "/") "dbbsoftt-repo" ":",
    string_append_assoc (registryHost cfg ++ "/") ("dbbsoftt-repo" ++ ":")
      "1.2.3", string_append_assoc "dbbsoftt-repo" ":" "1.2.3"]
  have hlit : "dbbsoftt-repo" ++ (":" ++ "1.2.3") = "dbbsoftt-repo:1.2.3" := by
    decide
  rw [hlit]

/-- Claim C5: the health server started with version `"2.0.0"` answers
`GET /health` with status 200, a JSON content type, and the exact body
`\x7b"status":"healthy","version":"2.0.0"\x7d`; and for every version the
handler is a pure function of the startup version that always reports
`healthy` — there is no deeper readiness check it could consult. -/
theorem c5_health_endpoint :
    AppServer.handle "2.0.0" "GET" "/health"
      = some { status := 200, contentType := "application/json",
               body := "\x7b\"status\":\"healthy\",\"version\":\"2.0.0\"\x7d" } ∧
    ∀ v : String, AppServer.handle v "GET" "/health"
      = some { status := 200, contentType := "application/json",
               body := AppServer.renderJsonObj
                 [("status", "healthy"), ("version", v)] } :=
  ⟨by decide, fun _ => rfl⟩

/-- Claim C9: the claim says no operation ever deletes a prior deployment
record or stored image automatically, but the code configures the image
repository with `removalPolicy: DESTROY` and `emptyOnDelete: true`, so
tearing the stack down automatically deletes every stored image — the
code contradicts the retention-for-rollback intent its own comments state
("Easy rollbacks (can redeploy any previous version)"). -/
theorem c9_teardown_deletes_images (cfg : Config) (v : String) :
    (stackFor cfg v).repo.removalPolicy = RemovalPolicy.destroy ∧
    (stackFor cfg v).repo.emptyOnDelete = true ∧
    imagesAfterTeardown (stackFor cfg v).repo
      ["dbbsoftt-repo:1.0.0", "dbbsoftt-repo:1.0.1"] = [] :=
  ⟨rfl, rfl, rfl⟩

/-- Claim C6: for every input ordering of a descriptor holding the
IdentityRole, NetworkRule, ImageRepository and ComputeEnvironment, the
topological sort over the depends-on edges places all three dependencies
strictly before the ComputeEnvironment. -/
theorem c6_creation_order (l : List RKind)
    (h : l.Perm [RKind.identityRole, RKind.networkRule,
                 RKind.imageRepository, RKind.computeEnvironment]) :
    (topoSort dependsOn l).indexOf RKind.identityRole <
      (topoSort dependsOn l).indexOf RKind.computeEnvironment ∧
    (topoSort dependsOn l).indexOf RKind.networkRule <
      (topoSort dependsOn l).indexOf RKind.computeEnvironment ∧
    (topoSort dependsOn l).indexOf RKind.imageRepository <
      (topoSort dependsOn l).indexOf RKind.computeEnvironment := by
  have hall : ∀ l' ∈ ([RKind.identityRole, RKind.networkRule,
      RKind.imageRepository, RKind.computeEnvironment] :
        List RKind).permutations',
      (topoSort dependsOn l').indexOf RKind.identityRole <
        (topoSort dependsOn l').indexOf RKind.computeEnvironment ∧
      (topoSort dependsOn l').indexOf RKind.networkRule <
        (topoSort dependsOn l').indexOf RKind.computeEnvironment ∧
      (topoSort dependsOn l').indexOf RKind.imageRepository <
        (topoSort dependsOn l').indexOf RKind.computeEnvironment := by
    decide
  exact hall l (List.mem_permutations'.mpr h)

/-- Witness for C6 at the reversed input ordering. -/
theorem c6_witness :
    (topoSort dependsOn [RKind.computeEnvironment, RKind.imageRepository,
        RKind.networkRule, RKind.identityRole]).indexOf RKind.identityRole <
      (topoSort dependsOn [RKind.computeEnvironment, RKind.imageRepository,
        RKind.networkRule, RKind.identityRole]).indexOf
          RKind.computeEnvironment ∧
    (topoSort dependsOn [RKind.computeEnvironment, RKind.imageRepository,
        RKind.networkRule, RKind.identityRole]).indexOf RKind.networkRule <
      (topoSort dependsOn [RKind.computeEnvironment, RKind.imageRepository,
        RKind.networkRule, RKind.identityRole]).indexOf
          RKind.computeEnvironment ∧
    (topoSort dependsOn [RKind.computeEnvironment, RKind.imageRepository,
        RKind.networkRule, RKind.identityRole]).indexOf RKind.imageRepository <
      (topoSort dependsOn [RKind.computeEnvironment, RKind.imageRepository,
        RKind.networkRule, RKind.identityRole]).indexOf
          RKind.computeEnvironment :=
  c6_creation_order
    [RKind.computeEnvironment, RKind.imageRepository, RKind.networkRule,
     RKind.identityRole]
    (List.mem_permutations'.mp (by decide))

/-- Claim C7: re-applying an unchanged descriptor whose resource names are
distinct issues zero further API calls — neither creations nor updates —
and leaves the external state exactly as the first apply left it. -/
theorem c7_idempotent_apply {σ : Type} [DecidableEq σ] (st : ApplyState σ)
    (d : List (String × σ)) (hnd : (d.map Prod.fst).Nodup) :
    applyAll (applyAll st d).1 d = ((applyAll st d).1, []) :=
  applyAll_no_change _ _ (fun r hr => lookupName_applyAll_mem st d hnd r hr)

/-- Witness for C7 at the concrete stack descriptor, starting from an
empty external state. -/
theorem c7_witness :
    ((stackFor testCfg "1.0.0").entries.map Prod.fst).Nodup ∧
    applyAll (applyAll [] (stackFor testCfg "1.0.0").entries).1
        (stackFor testCfg "1.0.0").entries
      = ((applyAll [] (stackFor testCfg "1.0.0").entries).1, []) :=
  ⟨by decide, c7_idempotent_apply _ _ (by decide)⟩

/-- Claim C8: when every call issued for the descriptor prefix `pre` is
accepted and the next entry `r` produces a call the API rejects, the
Applier surfaces that first failure — with the failing resource's name and
operation — and aborts: whatever follows `r` is never submitted, and the
result is the same error for every tail `rest`. No retry is attempted and
no error is swallowed. -/
theorem c8_abort_on_first_failure {σ : Type} [DecidableEq σ]
    (submit : ApiCall → Bool) (st : ApplyState σ)
    (pre : List (String × σ)) (r : String × σ) (c : ApiCall)
    (hpre : ∀ c' ∈ (applyAll st pre).2, submit c' = true)
    (hc : (applyOne (applyAll st pre).1 r).2 = some c)
    (hfail : submit c = false) (rest : List (String × σ)) :
    applySubmit submit st (pre ++ r :: rest)
      = Except.error { name := c.name, op := c.op } := by
  induction pre generalizing st with
  | nil =>
    show applySubmit submit st (r :: rest) = _
    unfold applySubmit
    cases ha : applyOne st r with
    | mk st' copt =>
      have hc' : copt = some c := by
        have := hc
        rw [show (applyAll st []).1 = st from rfl, ha] at this
        exact this
      subst hc'
      simp [hfail]
  | cons a pre ih =>
    cases ha : applyOne st a with
    | mk st' copt =>
      have hall : applyAll st (a :: pre)
          = ((applyAll st' pre).1, copt.toList ++ (applyAll st' pre).2) := by
        show (let step := applyOne st a
              let next := applyAll step.1 pre
              (next.1, step.2.toList ++ next.2)) = _
        rw [ha]
      have hc' : (applyOne (applyAll st' pre).1 r).2 = some c := by
        have := hc
        rw [hall] at this
        exact this
      show applySubmit submit st (a :: (pre ++ r :: rest)) = _
      unfold applySubmit
      rw [ha]
      cases copt with
      | none =>
        have hpre' : ∀ c' ∈ (applyAll st' pre).2, submit c' = true := by
          intro c' hmem
          apply hpre
          rw [hall]
          simpa using hmem
        show applySubmit submit st' (pre ++ r :: rest) = _
        exact ih st' hpre' hc'
      | some chead =>
        have hhead : submit chead = true := by
          apply hpre
          rw [hall]
          simp
        have hpre' : ∀ c' ∈ (applyAll st' pre).2, submit c' = true := by
          intro c' hmem
          apply hpre
          rw [hall]
          simp [hmem]
        simp only [hhead, if_true, ih st' hpre' hc']

/-- Witness for C8: an API that rejects everything, an empty prefix, the
Beanstalk application as the failing entry and the environment as the
never-submitted tail. -/
theorem c8_witness :
    (∀ c' ∈ (applyAll ([] : ApplyState Resource) []).2,
        (fun _ => false : ApiCall → Bool) c' = true) ∧
    (applyOne (applyAll ([] : ApplyState Resource) []).1
        ("MyEBApp", Resource.application { applicationName := "DbbSoft" })).2
      = some (ApiCall.create "MyEBApp") ∧
    applySubmit (fun _ => false) ([] : ApplyState Resource)
        ([] ++ ("MyEBApp",
                Resource.application { applicationName := "DbbSoft" }) ::
          [("MyEBEnv",
            Resource.computeEnvironment (stackFor testCfg "1.0.0").env)])
      = Except.error { name := (ApiCall.create "MyEBApp").name,
                       op := (ApiCall.create "MyEBApp").op } :=
  ⟨by decide, by decide,
    c8_abort_on_first_failure (fun _ => false) [] []
      ("MyEBApp", Resource.application { applicationName := "DbbSoft" })
      (ApiCall.create "MyEBApp") (by decide) (by decide) rfl
      [("MyEBEnv",
        Resource.computeEnvironment (stackFor testCfg "1.0.0").env)]⟩

/-- Claim C10: for every deploy-time context and version, the destination
the image push targets (`ECRDeployment` `dest`) and the image URI the
environment is told to pull (`AWS_EB_DOCKER_IMAGE_URI`) are the identical
string, so the environment pulls exactly the tag that was pushed. -/
theorem c10_push_and_pull_uri_identical (cfg : Config) (v : String) :
    optionValues (stackFor cfg v).env "AWS_EB_DOCKER_IMAGE_URI"
      = [(stackFor cfg v).deployDockerImage.dest] :=
  rfl

end DbbSoft
